import Mathlib

/-!
Verification of the YCSB cluster-benchmark orchestrator scripts
(`redis_cluster_benchmark.py`, `rex_store_cluster_benchmark.py`,
`bench_output_parser.py`) against their natural-language specification.

The Python code is shallowly embedded: pure text transformations become
Lean functions on `String` / `List Char`; the process-supervision loops
become fold/step functions over explicit event lists; external command
outcomes (build success, launch success, workload success, signal
delivery) are supplied as oracle parameters.
-/

namespace YCSBBench

/-! ## Text model: Python `content.split("\n")`, `"\n".join(...)`,
    and substring containment (`needle in line`). -/

/-- Python `content.split("\n")` on the character list of the content:
splits at every newline, keeping empty pieces (`"" → [""]`,
`"a\n" → ["a", ""]`). -/
def splitLines : List Char → List (List Char)
  | [] => [[]]
  | c :: rest =>
    let r := splitLines rest
    if c = '\n' then [] :: r
    else (c :: r.headD []) :: r.tail

/-- Python `"\n".join(lines)` on character lists. -/
def joinLines : List (List Char) → List Char
  | [] => []
  | [l] => l
  | l :: ls => l ++ '\n' :: joinLines ls

/-- The Maven success marker searched for by `clean_maven_output`. -/
def markerStr : String := "[INFO] BUILD SUCCESS"

/-- Python substring containment `needle in haystack`: some suffix of the
haystack starts with the needle. -/
def hasSubstr (needle : List Char) : List Char → Bool
  | [] => needle.isEmpty
  | c :: rest => needle.isPrefixOf (c :: rest) || hasSubstr needle rest

/-- Python `"[INFO] BUILD SUCCESS" in line`. -/
def lineHasMarker (l : List Char) : Bool := hasSubstr markerStr.data l

/-- The Python `for i, line in enumerate(lines): if marker in line: break`
search: index of the first line containing the marker, `none` when the
marker never occurs (the code's `-1` sentinel). -/
def firstMarkerIdx : List (List Char) → Option Nat
  | [] => none
  | l :: rest =>
    if lineHasMarker l then some 0
    else (firstMarkerIdx rest).map (· + 1)

/-- The number of lines skipped after the marker line
(`skip_lines = 5` in both benchmark scripts). -/
def skip_lines : Nat := 5

/-- `RedisClusterBenchmark.clean_maven_output` /
`RexStoreClusterBenchmark.clean_maven_output` (the two copies are
textually identical): split on newlines, find the first line containing
`"[INFO] BUILD SUCCESS"`; if none, return the content unchanged; if the
marker index plus 5 is still inside the line list, rejoin the lines from
that point on; otherwise return the content unchanged. -/
def clean_maven_output (content : String) : String :=
  let lines := splitLines content.data
  match firstMarkerIdx lines with
  | none => content
  | some i =>
    if i + skip_lines < lines.length then
      String.mk (joinLines (lines.drop (i + skip_lines)))
    else content

/-! ## Decimal rendering of run indices and node counts
    (Python `str(node_count)`, `f"{run_number}"`). -/

/-- The character of one decimal digit. -/
def digitChar (d : Nat) : Char := Char.ofNat (48 + d)

/-- Most-significant-first decimal digits of `n`, via explicit fuel so
that the definition is structurally recursive; `natDigits fuel 0 = []`. -/
def natDigits : Nat → Nat → List Char
  | 0, _ => []
  | fuel + 1, n =>
    if n = 0 then []
    else natDigits fuel (n / 10) ++ [digitChar (n % 10)]

/-- Python `str(n)` for a natural number. -/
def natStr (n : Nat) : String :=
  if n = 0 then "0" else String.mk (natDigits (n + 1) n)

/-- Decimal value of a digit character. -/
def decVal (c : Char) : Nat := c.toNat - 48

/-- Decimal decoding of a most-significant-first digit list. -/
def decChars (l : List Char) : Nat := l.foldl (fun a c => 10 * a + decVal c) 0

/-! ## Artifact paths (`os.path.join`, f-strings in `run_ycsb_workload`). -/

/-- `os.path.join` on the relative path components used by the scripts. -/
def pjoin (a b : String) : String := a ++ "/" ++ b

/-- `self.output_dir = os.path.join(self.output_base_dir, workload,
str(node_count))`. -/
def output_dir (base workload : String) (node_count : Nat) : String :=
  pjoin (pjoin base workload) (natStr node_count)

/-- `output_file = os.path.join(self.output_dir,
f"{measurement_type}_{run_number}.txt")` in `run_ycsb_workload`
(identical in both benchmark scripts up to the base directory). -/
def output_file_path (base workload : String) (node_count : Nat)
    (mtype : String) (run_number : Nat) : String :=
  pjoin (output_dir base workload node_count)
    (mtype ++ "_" ++ natStr run_number ++ ".txt")

/-! ## Readiness monitor (`RedisClusterBenchmark.launch_redis_cluster`).

The monitoring loop reads the launched process's combined output stream
line by line.  One loop iteration is driven by one observation: the
elapsed time `time.time() - start_time` at the loop-head check, the line
read (`none` models Python's empty string at EOF, `some b` a real line
where `b` says whether it contains `"Cluster state changed: ok"`), and
the value of `process.poll() is not None` consulted when the line is
empty. -/

/-- One iteration's inputs to the `launch_redis_cluster` monitoring loop. -/
structure Obs where
  t : Nat
  line : Option Bool
  pollExited : Bool
deriving DecidableEq

/-- `timeout = 120  # 2 minutes timeout` in `launch_redis_cluster`. -/
def launchTimeout : Nat := 120

/-- The `while ok_count < self.node_count and time.time() - start_time <
timeout` loop of `launch_redis_cluster`: returns the final `ok_count`.
An empty line with the process already exited triggers the `break`;
a line containing the readiness marker increments `ok_count`. -/
def monitor (n timeLimit : Nat) : Nat → List Obs → Nat
  | ok, [] => ok
  | ok, o :: rest =>
    if ok < n ∧ o.t < timeLimit then
      match o.line with
      | none => if o.pollExited then ok else monitor n timeLimit ok rest
      | some marker =>
        monitor n timeLimit (if marker then ok + 1 else ok) rest
    else ok

/-- The `ok_count` value at the head of each loop iteration, ending with
the value the loop exits with. -/
def monitorStates (n timeLimit : Nat) : Nat → List Obs → List Nat
  | ok, [] => [ok]
  | ok, o :: rest =>
    if ok < n ∧ o.t < timeLimit then
      match o.line with
      | none =>
        if o.pollExited then [ok] else ok :: monitorStates n timeLimit ok rest
      | some marker =>
        ok :: monitorStates n timeLimit (if marker then ok + 1 else ok) rest
    else [ok]

/-- The boolean result of `launch_redis_cluster`'s readiness wait:
`ok_count == self.node_count` after the loop. -/
def launchReady (n : Nat) (evs : List Obs) : Bool :=
  monitor n launchTimeout 0 evs == n

/-- Number of marker lines among a list of observations. -/
def markerCount (l : List Obs) : Nat := l.countP (fun o => o.line == some true)

/-- An observation the loop can consume without stopping: its loop-head
time check is strictly below the deadline and it is not the
empty-line-with-exited-process `break` case. -/
def obsOk (timeLimit : Nat) (o : Obs) : Prop :=
  o.t < timeLimit ∧ ¬(o.line = none ∧ o.pollExited = true)

/-! ## Graceful shutdown (`RexStoreClusterBenchmark.stop_rex_store_cluster`).

`self.current_process` is modelled as an `Option StopProc`; the fields
describe how the external world reacts: whether `poll()` already reports
an exit at entry, whether the `os.killpg(..., SIGINT)` call itself
raises, how many seconds after SIGINT the process group exits (`none` =
never), and whether the `os.killpg(..., SIGKILL)` call raises. -/

/-- External behaviour of the tracked cluster process for one `stop` call. -/
structure StopProc where
  exited : Bool
  sigintFails : Bool
  exitTime : Option Nat
  sigkillFails : Bool
deriving DecidableEq

/-- Signals delivered to the process group by `stop_rex_store_cluster`. -/
inductive StopEv where
  | sigint : StopEv
  | sigkill : StopEv
deriving DecidableEq

/-- `self.current_process.wait(timeout=5)` — the grace period. -/
def graceTimeout : Nat := 5

/-- `stop_rex_store_cluster`: result is (signals delivered, new
`current_process`, whether the call raises).  When the process is absent
or `poll()` reports it exited, the guard skips all signalling.  A raising
SIGINT `killpg` is caught by the `except Exception` handler; a raising
SIGKILL `killpg` (inside the `except TimeoutExpired` handler) propagates;
the `finally` clears `current_process` on every signalling path. -/
def stop_rex_store_cluster (cur : Option StopProc) :
    List StopEv × Option StopProc × Bool :=
  match cur with
  | none => ([], none, false)
  | some p =>
    if p.exited then ([], some p, false)
    else if p.sigintFails then ([], none, false)
    else
      match p.exitTime with
      | some t =>
        if t ≤ graceTimeout then ([StopEv.sigint], none, false)
        else if p.sigkillFails then ([StopEv.sigint], none, true)
        else ([StopEv.sigint, StopEv.sigkill], none, false)
      | none =>
        if p.sigkillFails then ([StopEv.sigint], none, true)
        else ([StopEv.sigint, StopEv.sigkill], none, false)

/-! ## `run_command` and the sweep drivers (`run_benchmark`).

External command results are oracles; the sweeps are embedded as
functions producing the ordered list of lifecycle events they perform
together with how the driver ends (normal completion, an uncaught
exception, or `sys.exit`). -/

/-- Outcome of one external command invocation. -/
structure CmdResult where
  exitZero : Bool
  stdout : String
  stderr : String

/-- `run_command(command, check, shell)`: on a non-zero exit with
`check=True` the `subprocess.CalledProcessError` is re-raised, otherwise
`(stdout, stderr)` is returned. -/
def run_command (res : CmdResult) (check : Bool) :
    Except CmdResult (String × String) :=
  if res.exitZero then Except.ok (res.stdout, res.stderr)
  else if check then Except.error res
  else Except.ok (res.stdout, res.stderr)

/-- Whether a `run_command(..., check=True)` call succeeds. -/
def cmdOk (res : CmdResult) : Bool :=
  match run_command res true with
  | Except.ok _ => true
  | Except.error _ => false

/-- `self.measurement_types = ["timeseries", "histogram"]`. -/
def measurement_types : List String := ["timeseries", "histogram"]

/-- Lifecycle events performed by a sweep, in execution order. -/
inductive Ev where
  | build : Ev
  | buildYcsb : Ev
  | launchOkEv : Nat → String → Ev
  | launchFailEv : Nat → String → Ev
  | workloadEv : Nat → String → Ev
  | workloadFailEv : Nat → String → Ev
  | artifactEv : String → Ev
  | cleanupEv : Ev
  | exitEv : Nat → Ev
deriving DecidableEq

/-- How a sweep driver ends. -/
inductive Outcome where
  | completed : Outcome
  | raised : Outcome
  | exited : Nat → Outcome
deriving DecidableEq

/-- The `for measurement_type in self.measurement_types` body of
`RedisClusterBenchmark.run_benchmark`: each successful
`run_ycsb_workload` emits its workload execution and its artifact write;
a raising one emits its failure and aborts the inner loop (second
component: an exception is propagating). -/
def redisInner (wOk : Nat → String → Bool) (w : String) (nc r : Nat) :
    List String → List Ev × Bool
  | [] => ([], false)
  | mt :: rest =>
    if wOk r mt then
      let tail := redisInner wOk w nc r rest
      (Ev.workloadEv r mt ::
        Ev.artifactEv (output_file_path "redis_output" w nc mt (r + 1)) ::
        tail.1, tail.2)
    else ([Ev.workloadFailEv r mt], true)

/-- The `for run in range(self.runs)` loop of
`RedisClusterBenchmark.run_benchmark`, from run index `r` with `k` runs
remaining: a failed `launch_redis_cluster` prints and `continue`s; after
a successful launch the `try/finally` guarantees `reset_redis_cluster`
(the cleanup event) exactly once, and an inner exception then propagates
out of the whole loop. -/
def redisRuns (w : String) (nc : Nat) (lOk : Nat → Bool)
    (wOk : Nat → String → Bool) : Nat → Nat → List Ev × Outcome
  | _, 0 => ([], Outcome.completed)
  | r, k + 1 =>
    if lOk r then
      let inner := redisInner wOk w nc r measurement_types
      if inner.2 then
        (Ev.launchOkEv r "" :: inner.1 ++ [Ev.cleanupEv], Outcome.raised)
      else
        let rest := redisRuns w nc lOk wOk (r + 1) k
        (Ev.launchOkEv r "" :: inner.1 ++ [Ev.cleanupEv] ++ rest.1, rest.2)
    else
      let rest := redisRuns w nc lOk wOk (r + 1) k
      (Ev.launchFailEv r "" :: rest.1, rest.2)

/-- `RedisClusterBenchmark.run_benchmark`: `build_redis()` (fatal when
the Maven build fails), then the per-run loop. -/
def redisSweep (w : String) (nc runs : Nat) (buildRes : CmdResult)
    (lOk : Nat → Bool) (wOk : Nat → String → Bool) : List Ev × Outcome :=
  if cmdOk buildRes then
    let rest := redisRuns w nc lOk wOk 0 runs
    (Ev.build :: rest.1, rest.2)
  else ([Ev.build], Outcome.raised)

/-- The sweep cells of `RexStoreClusterBenchmark.run_benchmark`:
`for run in range(self.runs): for measurement_type in
self.measurement_types: ...`. -/
def rexCells (runs : Nat) : List (Nat × String) :=
  (List.range' 0 runs).flatMap fun r => measurement_types.map fun mt => (r, mt)

/-- The per-cell body of `RexStoreClusterBenchmark.run_benchmark`: a
failed `launch_rex_store_cluster` prints and calls `sys.exit(1)`; after
a successful launch the `try/finally` guarantees
`stop_rex_store_cluster` (the cleanup event) exactly once, and a raising
`run_ycsb_workload` then propagates. -/
def rexLoop (w : String) (nc : Nat) (lOk : Nat → String → Bool)
    (wOk : Nat → String → Bool) : List (Nat × String) → List Ev × Outcome
  | [] => ([], Outcome.completed)
  | (r, mt) :: rest =>
    if lOk r mt then
      if wOk r mt then
        let tail := rexLoop w nc lOk wOk rest
        (Ev.launchOkEv r mt :: Ev.workloadEv r mt ::
          Ev.artifactEv (output_file_path "rex_output" w nc mt (r + 1)) ::
          Ev.cleanupEv :: tail.1, tail.2)
      else
        ([Ev.launchOkEv r mt, Ev.workloadFailEv r mt, Ev.cleanupEv],
          Outcome.raised)
    else ([Ev.launchFailEv r mt, Ev.exitEv 1], Outcome.exited 1)

/-- `RexStoreClusterBenchmark.run_benchmark`: `build_rex_store()` then
`build_ycsb_client()` (each fatal on failure via `run_command` with
`check=True`), then the cell loop. -/
def rexSweep (w : String) (nc runs : Nat) (buildRes buildYcsbRes : CmdResult)
    (lOk : Nat → String → Bool) (wOk : Nat → String → Bool) :
    List Ev × Outcome :=
  if cmdOk buildRes then
    if cmdOk buildYcsbRes then
      let rest := rexLoop w nc lOk wOk (rexCells runs)
      (Ev.build :: Ev.buildYcsb :: rest.1, rest.2)
    else ([Ev.build, Ev.buildYcsb], Outcome.raised)
  else ([Ev.build], Outcome.raised)

/-- Cleanup discipline checker over a lifecycle trace.  Outside a launch
span (`false`): a successful launch opens a span, a stray cleanup or
workload event is a violation, anything else passes through.  Inside a
span (`true`): only workload and artifact events may occur before the
single closing cleanup; a trace that ends, launches again, or exits
while a span is open is a violation. -/
def cleanOk : Bool → List Ev → Bool
  | false, [] => true
  | false, Ev.launchOkEv _ _ :: rest => cleanOk true rest
  | false, Ev.cleanupEv :: _ => false
  | false, Ev.workloadEv _ _ :: _ => false
  | false, Ev.workloadFailEv _ _ :: _ => false
  | false, _ :: rest => cleanOk false rest
  | true, [] => false
  | true, Ev.cleanupEv :: rest => cleanOk false rest
  | true, Ev.workloadEv _ _ :: rest => cleanOk true rest
  | true, Ev.workloadFailEv _ _ :: rest => cleanOk true rest
  | true, Ev.artifactEv _ :: rest => cleanOk true rest
  | true, _ :: _ => false

/-! ## Output parser (`bench_output_parser.py`). -/

/-- `categories_of_interest = ['READ-MODIFY-WRITE', 'INSERT']`. -/
def categories_of_interest : List String := ["READ-MODIFY-WRITE", "INSERT"]

/-- `metrics_of_interest = ['AverageLatency(us)', 'MinLatency(us)',
'MaxLatency(us)']`. -/
def metrics_of_interest : List String :=
  ["AverageLatency(us)", "MinLatency(us)", "MaxLatency(us)"]

/-- The fixed output columns: `['filename']` followed by
`f'{cat}_{metric}'` for every category crossed with every metric. -/
def columns : List String :=
  "filename" ::
    (categories_of_interest.flatMap fun cat =>
      metrics_of_interest.map fun metric => cat ++ "_" ++ metric)

/-- Python dict assignment `results[key] = value` on an
insertion-ordered association list. -/
def dictInsert (m : List (String × String)) (k v : String) :
    List (String × String) :=
  if m.any (fun kv => kv.1 == k) then
    m.map (fun kv => if kv.1 == k then (k, v) else kv)
  else m ++ [(k, v)]

/-- One line of `parse_file`'s loop.  `matchLine` is the oracle for
`re.match(r'\[(\w+)\],\s*(.+?),\s*(.+)', line.strip())`, returning the
three captured groups when the regex matches.  A match contributes a
value only when its category and metric are both of interest. -/
def parseStep (matchLine : String → Option (String × String × String))
    (results : List (String × String)) (line : String) :
    List (String × String) :=
  match matchLine line with
  | none => results
  | some (cat, metric, value) =>
    if categories_of_interest.contains cat &&
        metrics_of_interest.contains metric then
      dictInsert results (cat ++ "_" ++ metric) value
    else results

/-- `parse_file`: start from `{'filename': relpath}` and fold the line
loop over the file's contents. -/
def parse_file (matchLine : String → Option (String × String × String))
    (relname : String) (content : List String) : List (String × String) :=
  content.foldl (fun results line => parseStep matchLine results line)
    [("filename", relname)]

/-! ## Theorems -/

/-! ### Sanitization (`clean_maven_output`): claims C3 and C10 -/

lemma firstMarkerIdx_eq_none (ls : List (List Char)) :
    firstMarkerIdx ls = none ↔ ∀ l ∈ ls, lineHasMarker l = false := by
  induction ls with
  | nil => simp [firstMarkerIdx]
  | cons a t ih =>
    by_cases h : lineHasMarker a
    · simp [firstMarkerIdx, h]
    · simp [firstMarkerIdx, h, ih, Bool.not_eq_true] at *

lemma firstMarkerIdx_eq_some (ls : List (List Char)) (k : Nat)
    (hk : k < ls.length)
    (hm : lineHasMarker (ls.get ⟨k, hk⟩) = true)
    (hfirst : ∀ l ∈ ls.take k, lineHasMarker l = false) :
    firstMarkerIdx ls = some k := by
  induction ls generalizing k with
  | nil => exact absurd hk (by simp)
  | cons a t ih =>
    cases k with
    | zero => simp only [List.get] at hm; simp [firstMarkerIdx, hm]
    | succ j =>
      have ha : lineHasMarker a = false := hfirst a (by simp)
      have ht : firstMarkerIdx t = some j := by
        refine ih j (by simpa using hk) (by simpa using hm) ?_
        intro l hl
        exact hfirst l (by simp [List.take_succ_cons]; exact Or.inr hl)
      simp [firstMarkerIdx, ha, ht]

/-- Claim C3: if the first line containing `"[INFO] BUILD SUCCESS"` is at
index `k` and at least 5 further lines follow it, `clean_maven_output`
returns the input's lines from index `k + 5` onward rejoined with
newlines; if no line contains the marker, it returns the input
unchanged, so re-applying it to marker-free text is the identity. -/
theorem clean_maven_output_spec (content : String) :
    (∀ k (hk : k < (splitLines content.data).length),
      lineHasMarker ((splitLines content.data).get ⟨k, hk⟩) = true →
      (∀ l ∈ (splitLines content.data).take k, lineHasMarker l = false) →
      k + 5 < (splitLines content.data).length →
      clean_maven_output content =
        String.mk (joinLines ((splitLines content.data).drop (k + 5)))) ∧
    ((∀ l ∈ splitLines content.data, lineHasMarker l = false) →
      clean_maven_output content = content ∧
      clean_maven_output (clean_maven_output content) =
        clean_maven_output content) := by
  constructor
  · intro k hk hm hfirst hlen
    have hidx := firstMarkerIdx_eq_some _ k hk hm hfirst
    simp only [clean_maven_output, hidx, skip_lines]
    simp [hlen]
  · intro hnone
    have hidx := (firstMarkerIdx_eq_none (splitLines content.data)).2 hnone
    have hid : clean_maven_output content = content := by
      simp only [clean_maven_output, hidx]
    exact ⟨hid, by rw [hid, hid]⟩

/-- Witness for claim C3 at concrete inputs: a marker at line 1 followed
by 6 lines strips through line 5 after it, and marker-free text is
returned unchanged. -/
theorem clean_maven_output_spec_witness :
    clean_maven_output "a\n[INFO] BUILD SUCCESS\nb\nc\nd\ne\nf" = "f" ∧
    clean_maven_output "no marker here\nat all" = "no marker here\nat all" := by
  constructor
  · have h := (clean_maven_output_spec
        "a\n[INFO] BUILD SUCCESS\nb\nc\nd\ne\nf").1 1 (by decide)
        (by decide) (by decide) (by decide)
    rw [h]; decide
  · exact ((clean_maven_output_spec "no marker here\nat all").2
      (by decide)).1

/-- Claim C10: when the first marker line is at index `k` but fewer than
5 lines follow it (`k + 5 ≥` line count), `clean_maven_output` returns
the full original content unchanged. -/
theorem clean_maven_output_short_tail (content : String) (k : Nat)
    (hk : k < (splitLines content.data).length)
    (hm : lineHasMarker ((splitLines content.data).get ⟨k, hk⟩) = true)
    (hfirst : ∀ l ∈ (splitLines content.data).take k, lineHasMarker l = false)
    (hshort : ¬ k + 5 < (splitLines content.data).length) :
    clean_maven_output content = content := by
  have hidx := firstMarkerIdx_eq_some _ k hk hm hfirst
  simp only [clean_maven_output, hidx, skip_lines]
  simp [hshort]

/-- Witness for claim C10: the marker is found at line 1 of a 3-line
input, so the diagnostics prefix is not stripped. -/
theorem clean_maven_output_short_tail_witness :
    clean_maven_output "x\n[INFO] BUILD SUCCESS\ny" =
      "x\n[INFO] BUILD SUCCESS\ny" :=
  clean_maven_output_short_tail "x\n[INFO] BUILD SUCCESS\ny" 1
    (by decide) (by decide) (by decide) (by decide)

/-! ### Artifact paths: claim C8 -/

lemma decVal_digitChar (d : Nat) (hd : d < 10) : decVal (digitChar d) = d := by
  interval_cases d <;> decide

lemma decChars_append_digit (xs : List Char) (c : Char) :
    decChars (xs ++ [c]) = 10 * decChars xs + decVal c := by
  simp [decChars, List.foldl_append]

lemma decChars_natDigits : ∀ fuel n, n ≤ fuel →
    decChars (natDigits fuel n) = n := by
  intro fuel
  induction fuel with
  | zero =>
    intro n hn
    interval_cases n
    simp [natDigits, decChars]
  | succ f ih =>
    intro n hn
    by_cases h0 : n = 0
    · simp [natDigits, h0, decChars]
    · have hdiv : n / 10 ≤ f := by
        have := Nat.div_lt_self (Nat.pos_of_ne_zero h0)
          (by norm_num : 1 < 10)
        omega
      simp only [natDigits, h0, if_false]
      rw [decChars_append_digit, ih _ hdiv,
        decVal_digitChar _ (Nat.mod_lt _ (by norm_num))]
      omega

lemma decChars_natStr (n : Nat) : decChars (natStr n).data = n := by
  by_cases h : n = 0
  · subst h; decide
  · simp only [natStr, h, if_false]
    exact decChars_natDigits (n + 1) n (Nat.le_succ n)

lemma natStr_injective : Function.Injective natStr := by
  intro a b h
  have := congrArg (fun s => decChars s.data) h
  simpa [decChars_natStr] using this

lemma strData_append (a b : String) : (a ++ b).data = a.data ++ b.data := by
  cases a; cases b; rfl

/-- Claim C8: `run_ycsb_workload` writes its result artifact to
`<output_base>/<workload>/<node_count>/<measurement_type>_<run_index>.txt`,
and two executions sharing `(workload, node_count, measurement_type)` but
differing in run index use two distinct, non-overwriting paths. -/
theorem output_file_path_spec (base w : String) (nc : Nat) (mt : String)
    (r1 r2 : Nat) :
    output_file_path base w nc mt r1 =
      base ++ "/" ++ w ++ "/" ++ natStr nc ++ "/" ++
        mt ++ "_" ++ natStr r1 ++ ".txt" ∧
    (r1 ≠ r2 →
      output_file_path base w nc mt r1 ≠ output_file_path base w nc mt r2) := by
  constructor
  · apply String.ext
    simp [output_file_path, output_dir, pjoin, strData_append,
      List.append_assoc]
  · intro hne heq
    apply hne
    have hd := congrArg String.data heq
    simp only [output_file_path, output_dir, pjoin, strData_append,
      List.append_assoc, List.append_cancel_left_eq] at hd
    have := congrArg decChars (List.append_cancel_right hd)
    rwa [decChars_natStr, decChars_natStr] at this

/-- Witness for claim C8: run indices 1 and 2 of the same
`(workload, node_count, measurement_type)` give distinct paths. -/
theorem output_file_path_spec_witness :
    output_file_path "rex_output" "workloada" 3 "timeseries" 1 ≠
      output_file_path "rex_output" "workloada" 3 "timeseries" 2 :=
  (output_file_path_spec "rex_output" "workloada" 3 "timeseries" 1 2).2
    (by decide)

/-! ### Graceful shutdown: claim C5 -/

/-- Claim C5: `stop_rex_store_cluster` sends SIGINT to the process
group; if the group exits within the 5-second grace period only SIGINT
is sent; SIGKILL is sent exactly when the group has not exited within
the grace period; and when the tracked process is absent or has already
exited, no signal is sent and the call does not raise. -/
theorem stop_rex_store_cluster_spec :
    (∀ p : StopProc, p.exited = false → p.sigintFails = false →
      ∀ t, p.exitTime = some t → t ≤ graceTimeout →
        stop_rex_store_cluster (some p) = ([StopEv.sigint], none, false)) ∧
    (∀ p : StopProc, p.exited = false → p.sigintFails = false →
      p.sigkillFails = false →
      (p.exitTime = none ∨ ∃ t, p.exitTime = some t ∧ graceTimeout < t) →
      stop_rex_store_cluster (some p) =
        ([StopEv.sigint, StopEv.sigkill], none, false)) ∧
    (stop_rex_store_cluster none = ([], none, false)) ∧
    (∀ p : StopProc, p.exited = true →
      stop_rex_store_cluster (some p) = ([], some p, false)) ∧
    (∀ p : StopProc, ∀ evs st r,
      stop_rex_store_cluster (some p) = (evs, st, r) →
      StopEv.sigkill ∈ evs →
      p.exited = false ∧
        (p.exitTime = none ∨ ∃ t, p.exitTime = some t ∧ graceTimeout < t)) := by
  refine ⟨?_, ?_, rfl, ?_, ?_⟩
  · intro p he hs t ht hle
    simp [stop_rex_store_cluster, he, hs, ht, hle]
  · intro p he hs hk htime
    rcases htime with h | ⟨t, ht, hgt⟩
    · simp [stop_rex_store_cluster, he, hs, hk, h]
    · simp [stop_rex_store_cluster, he, hs, hk, ht, Nat.not_le.2 hgt]
  · intro p he
    simp [stop_rex_store_cluster, he]
  · intro p evs st r hres hmem
    by_cases he : p.exited
    · simp [stop_rex_store_cluster, he] at hres
      rcases hres with ⟨h1, _⟩
      subst h1
      simp at hmem
    · refine ⟨by simpa using he, ?_⟩
      by_cases hs : p.sigintFails
      · simp [stop_rex_store_cluster, he, hs] at hres
        rcases hres with ⟨h1, _⟩
        subst h1
        simp at hmem
      · match hT : p.exitTime with
        | none => exact Or.inl rfl
        | some t =>
          refine Or.inr ⟨t, rfl, ?_⟩
          by_cases hle : t ≤ graceTimeout
          · simp [stop_rex_store_cluster, he, hs, hT, hle] at hres
            rcases hres with ⟨h1, _⟩
            subst h1
            simp at hmem
          · omega

/-- Witness for claim C5: a live process exiting 3 seconds after SIGINT
receives only the graceful signal; a live process that never exits
receives SIGINT then SIGKILL; an already-exited process receives
nothing. -/
theorem stop_rex_store_cluster_spec_witness :
    stop_rex_store_cluster
        (some { exited := false, sigintFails := false,
                exitTime := some 3, sigkillFails := false }) =
      ([StopEv.sigint], none, false) ∧
    stop_rex_store_cluster
        (some { exited := false, sigintFails := false,
                exitTime := none, sigkillFails := false }) =
      ([StopEv.sigint, StopEv.sigkill], none, false) ∧
    stop_rex_store_cluster
        (some { exited := true, sigintFails := false,
                exitTime := none, sigkillFails := false }) =
      ([], some { exited := true, sigintFails := false,
                  exitTime := none, sigkillFails := false }, false) := by
  refine ⟨?_, ?_, ?_⟩
  · exact stop_rex_store_cluster_spec.1 _ rfl rfl 3 rfl (by decide)
  · exact stop_rex_store_cluster_spec.2.1 _ rfl rfl rfl (Or.inl rfl)
  · exact stop_rex_store_cluster_spec.2.2.2.1 _ rfl

/-! ### Output parser: claim C9 -/

lemma dictInsert_keys (cols : List String) (m : List (String × String))
    (k v : String) (hm : ∀ kv ∈ m, kv.1 ∈ cols) (hk : k ∈ cols) :
    ∀ kv ∈ dictInsert m k v, kv.1 ∈ cols := by
  intro kv hkv
  unfold dictInsert at hkv
  by_cases h : m.any (fun kv => kv.1 == k)
  · rw [if_pos h] at hkv
    rcases List.mem_map.1 hkv with ⟨a, ha, rfl⟩
    by_cases hak : (a.1 == k) = true
    · simpa [hak] using hk
    · simp only [hak]
      simpa using hm a ha
  · rw [if_neg h] at hkv
    rcases List.mem_append.1 hkv with hin | hin
    · exact hm kv hin
    · simp at hin
      subst hin
      exact hk

lemma parseStep_keys (matchLine : String → Option (String × String × String))
    (res : List (String × String)) (line : String)
    (hres : ∀ kv ∈ res, kv.1 ∈ columns) :
    ∀ kv ∈ parseStep matchLine res line, kv.1 ∈ columns := by
  intro kv hkv
  unfold parseStep at hkv
  match hml : matchLine line with
  | none =>
    rw [hml] at hkv
    exact hres kv hkv
  | some (c, met, v) =>
    rw [hml] at hkv
    have hkv' : kv ∈ (if categories_of_interest.contains c &&
        metrics_of_interest.contains met then
        dictInsert res (c ++ "_" ++ met) v else res) := hkv
    by_cases hcm : (categories_of_interest.contains c &&
        metrics_of_interest.contains met) = true
    · rw [if_pos hcm] at hkv'
      rw [Bool.and_eq_true] at hcm
      obtain ⟨hc, hmet⟩ := hcm
      simp [categories_of_interest] at hc
      simp [metrics_of_interest] at hmet
      have hkey : (c ++ "_" ++ met) ∈ columns := by
        rcases hc with rfl | rfl <;> rcases hmet with rfl | rfl | rfl <;> decide
      exact dictInsert_keys columns res _ v hres hkey kv hkv'
    · rw [if_neg hcm] at hkv'
      exact hres kv hkv'

lemma parse_fold_keys (matchLine : String → Option (String × String × String))
    (content : List String) :
    ∀ init, (∀ kv ∈ init, kv.1 ∈ columns) →
      ∀ kv ∈ content.foldl (fun r l => parseStep matchLine r l) init,
        kv.1 ∈ columns := by
  induction content with
  | nil =>
    intro init h kv hkv
    exact h kv hkv
  | cons a t ih =>
    intro init h kv hkv
    exact ih _ (parseStep_keys matchLine init a h) kv hkv

/-- Claim C9: the aggregate summary has exactly the 7 fixed columns
`filename` then `<category>_<metric>` for the two categories of interest
crossed with the three latency metrics, in that order; every key
`parse_file` produces lies in those columns, and a matched line whose
category or metric is not of interest contributes nothing. -/
theorem parser_columns_spec :
    (columns = ["filename",
        "READ-MODIFY-WRITE_AverageLatency(us)",
        "READ-MODIFY-WRITE_MinLatency(us)",
        "READ-MODIFY-WRITE_MaxLatency(us)",
        "INSERT_AverageLatency(us)",
        "INSERT_MinLatency(us)",
        "INSERT_MaxLatency(us)"] ∧ columns.length = 7) ∧
    (∀ matchLine relname content kv,
      kv ∈ parse_file matchLine relname content → kv.1 ∈ columns) ∧
    (∀ matchLine res line c met v, matchLine line = some (c, met, v) →
      (categories_of_interest.contains c = false ∨
        metrics_of_interest.contains met = false) →
      parseStep matchLine res line = res) := by
  refine ⟨⟨by decide, by decide⟩, ?_, ?_⟩
  · intro ml rel content kv hkv
    refine parse_fold_keys ml content _ ?_ kv hkv
    intro kv' hkv'
    simp at hkv'
    subst hkv'
    exact (show "filename" ∈ columns by decide)
  · intro ml res line c met v hml hbad
    have hcond : (categories_of_interest.contains c &&
        metrics_of_interest.contains met) = false := by
      rcases hbad with h | h
      · rw [h, Bool.false_and]
      · rw [h, Bool.and_false]
    show (match ml line with
      | none => res
      | some (cat, metric, value) =>
        if categories_of_interest.contains cat &&
            metrics_of_interest.contains metric then
          dictInsert res (cat ++ "_" ++ metric) value
        else res) = res
    rw [hml]
    exact if_neg (by rw [hcond]; exact Bool.false_ne_true)

/-- Witness for claim C9: a matched line with category `OVERALL` (not of
interest) leaves the results untouched. -/
theorem parser_columns_spec_witness :
    parseStep (fun _ => some ("OVERALL", "Throughput(ops/sec)", "5")) []
      "x" = [] :=
  parser_columns_spec.2.2 _ [] "x" "OVERALL" "Throughput(ops/sec)" "5" rfl
    (Or.inl (by decide))

/-! ### Readiness monitor: claims C1 and C6 -/

lemma monitor_cons_stop (n T ok : Nat) (o : Obs) (rest : List Obs)
    (hg : ¬(ok < n ∧ o.t < T)) : monitor n T ok (o :: rest) = ok := by
  simp [monitor, hg]

lemma monitor_cons_break (n T ok : Nat) (o : Obs) (rest : List Obs)
    (hg : ok < n ∧ o.t < T) (hl : o.line = none)
    (hp : o.pollExited = true) : monitor n T ok (o :: rest) = ok := by
  simp [monitor, hg.1, hg.2, hl, hp]

lemma monitor_cons_skip (n T ok : Nat) (o : Obs) (rest : List Obs)
    (hg : ok < n ∧ o.t < T) (hl : o.line = none)
    (hp : o.pollExited = false) :
    monitor n T ok (o :: rest) = monitor n T ok rest := by
  simp [monitor, hg.1, hg.2, hl, hp]

lemma monitor_cons_line (n T ok : Nat) (o : Obs) (rest : List Obs)
    (hg : ok < n ∧ o.t < T) (m : Bool) (hl : o.line = some m) :
    monitor n T ok (o :: rest) =
      monitor n T (if m then ok + 1 else ok) rest := by
  simp [monitor, hg.1, hg.2, hl]

lemma markerCount_nil : markerCount [] = 0 := rfl

lemma markerCount_cons (o : Obs) (l : List Obs) :
    markerCount (o :: l) =
      markerCount l + (if o.line == some true then 1 else 0) := by
  simp [markerCount, List.countP_cons]

lemma monitor_eq_iff (n T : Nat) :
    ∀ (evs : List Obs) (ok : Nat), ok ≤ n →
      (monitor n T ok evs = n ↔
        ∃ k, k ≤ evs.length ∧ markerCount (evs.take k) + ok = n ∧
          ∀ o ∈ evs.take k, obsOk T o) := by
  intro evs
  induction evs with
  | nil =>
    intro ok hok
    simp only [monitor, List.length_nil, List.take_nil]
    constructor
    · intro h
      exact ⟨0, Nat.le_refl 0, by simp [markerCount_nil, h], by simp⟩
    · rintro ⟨k, hk, hcount, -⟩
      simp [markerCount_nil] at hcount
      omega
  | cons o rest ih =>
    intro ok hok
    by_cases hg : ok < n ∧ o.t < T
    · cases hline : o.line with
      | none =>
        by_cases hp : o.pollExited = true
        · rw [monitor_cons_break n T ok o rest hg hline hp]
          constructor
          · intro h
            omega
          · rintro ⟨k, hk, hcount, hobs⟩
            cases k with
            | zero =>
              simp [markerCount_nil] at hcount
              omega
            | succ j =>
              have hoo := hobs o (by simp [List.take_succ_cons])
              exact absurd ⟨hline, hp⟩ hoo.2
        · have hp' : o.pollExited = false := by
            simpa using hp
          rw [monitor_cons_skip n T ok o rest hg hline hp', ih ok hok]
          constructor
          · rintro ⟨j, hj, hcount, hobs⟩
            refine ⟨j + 1, by simpa using hj, ?_, ?_⟩
            · rw [List.take_succ_cons, markerCount_cons]
              simp [hline]
              omega
            · intro o' ho'
              rw [List.take_succ_cons] at ho'
              rcases List.mem_cons.1 ho' with rfl | h'
              · exact ⟨hg.2, by simp [hline, hp']⟩
              · exact hobs o' h'
          · rintro ⟨k, hk, hcount, hobs⟩
            cases k with
            | zero =>
              simp [markerCount_nil] at hcount
              omega
            | succ j =>
              refine ⟨j, by simpa using hk, ?_, ?_⟩
              · rw [List.take_succ_cons, markerCount_cons] at hcount
                simp [hline] at hcount
                omega
              · intro o' ho'
                exact hobs o' (by simp [List.take_succ_cons, ho'])
      | some m =>
        rw [monitor_cons_line n T ok o rest hg m hline]
        have hok' : (if m then ok + 1 else ok) ≤ n := by
          cases m <;> simp <;> omega
        rw [ih _ hok']
        constructor
        · rintro ⟨j, hj, hcount, hobs⟩
          refine ⟨j + 1, by simpa using hj, ?_, ?_⟩
          · rw [List.take_succ_cons, markerCount_cons]
            cases m <;> simp [hline] <;> simp [hline] at hcount <;> omega
          · intro o' ho'
            rw [List.take_succ_cons] at ho'
            rcases List.mem_cons.1 ho' with rfl | h'
            · exact ⟨hg.2, by simp [hline]⟩
            · exact hobs o' h'
        · rintro ⟨k, hk, hcount, hobs⟩
          cases k with
          | zero =>
            simp [markerCount_nil] at hcount
            omega
          | succ j =>
            refine ⟨j, by simpa using hk, ?_, ?_⟩
            · rw [List.take_succ_cons, markerCount_cons] at hcount
              cases m <;> simp [hline] at hcount <;> simp <;> omega
            · intro o' ho'
              exact hobs o' (by simp [List.take_succ_cons, ho'])
    · rw [monitor_cons_stop n T ok o rest hg]
      constructor
      · intro h
        exact ⟨0, Nat.zero_le _, by simp [markerCount_nil, h], by simp⟩
      · rintro ⟨k, hk, hcount, hobs⟩
        cases k with
        | zero =>
          simp [markerCount_nil] at hcount
          omega
        | succ j =>
          by_cases hokn : ok < n
          · have hT : ¬ o.t < T := fun ht => hg ⟨hokn, ht⟩
            have hoo := hobs o (by simp [List.take_succ_cons])
            exact absurd hoo.1 hT
          · omega

lemma monitor_reached (n T : Nat) (l : List Obs) : monitor n T n l = n := by
  cases l with
  | nil => rfl
  | cons o rest => exact monitor_cons_stop n T n o rest (by simp)

lemma monitor_append_of_reached (n T : Nat) :
    ∀ (evs post : List Obs) (ok : Nat), ok ≤ n →
      monitor n T ok evs = n → monitor n T ok (evs ++ post) = n := by
  intro evs
  induction evs with
  | nil =>
    intro post ok hok h
    have hokn : ok = n := by simpa [monitor] using h
    subst hokn
    exact monitor_reached _ T post
  | cons o rest ih =>
    intro post ok hok h
    rw [List.cons_append]
    by_cases hg : ok < n ∧ o.t < T
    · cases hline : o.line with
      | none =>
        by_cases hp : o.pollExited = true
        · rw [monitor_cons_break n T ok o rest hg hline hp] at h
          omega
        · have hp' : o.pollExited = false := by simpa using hp
          rw [monitor_cons_skip n T ok o rest hg hline hp'] at h
          rw [monitor_cons_skip n T ok o (rest ++ post) hg hline hp']
          exact ih post ok hok h
      | some m =>
        rw [monitor_cons_line n T ok o rest hg m hline] at h
        rw [monitor_cons_line n T ok o (rest ++ post) hg m hline]
        refine ih post _ ?_ h
        cases m <;> simp <;> omega
    · rw [monitor_cons_stop n T ok o rest hg] at h
      rw [monitor_cons_stop n T ok o (rest ++ post) hg]
      exact h

/-- Claim C1: the readiness wait of `launch_redis_cluster` returns true
iff the observed ready-marker count reaches `node_count` over a prefix of
the stream all of whose loop-head time checks are strictly below the
120-second deadline (and which hits no premature-exit break); and once it
has returned true on a prefix, any further stream events — including ones
past the deadline — cannot change the result, i.e. it returns true as
soon as the `node_count`-th marker line is read. -/
theorem launchReady_spec (n : Nat) (evs post : List Obs) :
    (launchReady n evs = true ↔
      ∃ k, k ≤ evs.length ∧ markerCount (evs.take k) = n ∧
        ∀ o ∈ evs.take k, obsOk launchTimeout o) ∧
    (launchReady n evs = true → launchReady n (evs ++ post) = true) := by
  have hiff := monitor_eq_iff n launchTimeout evs 0 (Nat.zero_le n)
  simp only [Nat.add_zero] at hiff
  constructor
  · rw [launchReady, beq_iff_eq]
    exact hiff
  · intro h
    rw [launchReady, beq_iff_eq] at h ⊢
    exact monitor_append_of_reached n launchTimeout evs post 0 (Nat.zero_le n) h

/-- Witness for claim C1: with `node_count = 2` and both markers arriving
well before the deadline, the wait succeeds, and appending further
events (even past the deadline) leaves the result true. -/
theorem launchReady_spec_witness :
    launchReady 2 [⟨0, some true, false⟩, ⟨3, some true, false⟩] = true ∧
    launchReady 2 ([⟨0, some true, false⟩, ⟨3, some true, false⟩] ++
      [⟨200, none, true⟩]) = true :=
  ⟨by decide,
    (launchReady_spec 2 [⟨0, some true, false⟩, ⟨3, some true, false⟩]
      [⟨200, none, true⟩]).2 (by decide)⟩

lemma monitorStates_head (n T : Nat) (evs : List Obs) (ok : Nat) :
    (monitorStates n T ok evs).head? = some ok := by
  cases evs with
  | nil => rfl
  | cons o rest =>
    by_cases hg : ok < n ∧ o.t < T
    · cases hline : o.line with
      | none =>
        by_cases hp : o.pollExited = true
        · simp [monitorStates, hg.1, hg.2, hline, hp]
        · have hp' : o.pollExited = false := by simpa using hp
          simp [monitorStates, hg.1, hg.2, hline, hp']
      | some m =>
        simp [monitorStates, hg.1, hg.2, hline]
    · simp [monitorStates, hg]

lemma monitorStates_mono (n T : Nat) :
    ∀ (evs : List Obs) (ok : Nat), ok ≤ n →
      List.Chain' (· ≤ ·) (monitorStates n T ok evs) ∧
        ∀ s ∈ monitorStates n T ok evs, s ≤ n := by
  intro evs
  induction evs with
  | nil =>
    intro ok hok
    constructor
    · simp [monitorStates]
    · simpa [monitorStates] using hok
  | cons o rest ih =>
    intro ok hok
    by_cases hg : ok < n ∧ o.t < T
    · cases hline : o.line with
      | none =>
        by_cases hp : o.pollExited = true
        · constructor
          · simp [monitorStates, hg.1, hg.2, hline, hp]
          · simp [monitorStates, hg.1, hg.2, hline, hp]
            exact hok
        · have hp' : o.pollExited = false := by simpa using hp
          have hrec := ih ok hok
          constructor
          · simp only [monitorStates, hg.1, hg.2, hline, hp', if_true,
              and_self, Bool.false_eq_true, if_false, reduceIte]
            rw [List.chain'_cons']
            refine ⟨?_, hrec.1⟩
            intro b hb
            rw [monitorStates_head] at hb
            simp at hb
            omega
          · intro s hs
            simp only [monitorStates, hg.1, hg.2, hline, hp', if_true,
              and_self, Bool.false_eq_true, if_false, reduceIte] at hs
            rcases List.mem_cons.1 hs with rfl | hs'
            · exact hok
            · exact hrec.2 s hs'
      | some m =>
        have hok' : (if m then ok + 1 else ok) ≤ n := by
          cases m <;> simp <;> omega
        have hrec := ih _ hok'
        constructor
        · simp only [monitorStates, hg.1, hg.2, hline]
          simp only [if_true, and_self, reduceIte]
          rw [List.chain'_cons']
          refine ⟨?_, hrec.1⟩
          intro b hb
          rw [monitorStates_head] at hb
          simp at hb
          subst hb
          cases m <;> simp
        · intro s hs
          simp only [monitorStates, hg.1, hg.2, hline] at hs
          simp only [if_true, and_self, reduceIte] at hs
          rcases List.mem_cons.1 hs with rfl | hs'
          · exact hok
          · exact hrec.2 s hs'
    · constructor
      · simp [monitorStates, hg]
      · simp [monitorStates, hg]
        exact hok

/-- Claim C6: over every execution of the readiness-monitoring loop the
observed ready count starts at 0, is monotonically non-decreasing from
one loop iteration to the next, and never exceeds `node_count`. -/
theorem monitorStates_invariant (n : Nat) (evs : List Obs) :
    List.Chain' (· ≤ ·) (monitorStates n launchTimeout 0 evs) ∧
      ∀ s ∈ monitorStates n launchTimeout 0 evs, s ≤ n :=
  monitorStates_mono n launchTimeout evs 0 (Nat.zero_le n)

/-- Witness for claim C6: a concrete three-event stream for
`node_count = 2` yields the monotone state trace, and the state 1 it
contains is bounded by 2. -/
theorem monitorStates_invariant_witness :
    List.Chain' (· ≤ ·) (monitorStates 2 launchTimeout 0
      [⟨0, some true, false⟩, ⟨1, some false, false⟩,
        ⟨2, some true, false⟩]) ∧ 1 ≤ 2 :=
  ⟨(monitorStates_invariant 2 [⟨0, some true, false⟩, ⟨1, some false, false⟩,
      ⟨2, some true, false⟩]).1,
    (monitorStates_invariant 2 [⟨0, some true, false⟩, ⟨1, some false, false⟩,
      ⟨2, some true, false⟩]).2 1 (by decide)⟩

/-! ### Sweep cleanup discipline: claim C4 -/

lemma cleanOk_false_launch (r : Nat) (mt : String) (l : List Ev) :
    cleanOk false (Ev.launchOkEv r mt :: l) = cleanOk true l := rfl

lemma cleanOk_false_launchFail (r : Nat) (mt : String) (l : List Ev) :
    cleanOk false (Ev.launchFailEv r mt :: l) = cleanOk false l := rfl

lemma cleanOk_false_build (l : List Ev) :
    cleanOk false (Ev.build :: l) = cleanOk false l := rfl

lemma cleanOk_false_buildYcsb (l : List Ev) :
    cleanOk false (Ev.buildYcsb :: l) = cleanOk false l := rfl

lemma cleanOk_redisInner_append (w : String) (nc r : Nat)
    (wOk : Nat → String → Bool) (suffix : List Ev) :
    cleanOk true ((redisInner wOk w nc r measurement_types).1 ++
      Ev.cleanupEv :: suffix) = cleanOk false suffix := by
  by_cases h1 : wOk r "timeseries" = true
  · by_cases h2 : wOk r "histogram" = true
    · simp [redisInner, measurement_types, h1, h2, cleanOk]
    · simp [redisInner, measurement_types, h1, h2, cleanOk]
  · simp [redisInner, measurement_types, h1, cleanOk]

lemma cleanOk_redisRuns (w : String) (nc : Nat) (lOk : Nat → Bool)
    (wOk : Nat → String → Bool) :
    ∀ k r, cleanOk false (redisRuns w nc lOk wOk r k).1 = true := by
  intro k
  induction k with
  | zero => intro r; rfl
  | succ k ih =>
    intro r
    by_cases hl : lOk r = true
    · by_cases hib : (redisInner wOk w nc r measurement_types).2 = true
      · simp only [redisRuns, hl, hib, if_true]
        rw [List.cons_append, cleanOk_false_launch, cleanOk_redisInner_append]
        rfl
      · have hib' : (redisInner wOk w nc r measurement_types).2 = false := by
          simpa using hib
        simp only [redisRuns, hl, hib', if_true, Bool.false_eq_true,
          if_false]
        rw [List.append_assoc, List.singleton_append, List.cons_append,
          cleanOk_false_launch, cleanOk_redisInner_append]
        exact ih (r + 1)
    · have hl' : lOk r = false := by simpa using hl
      simp only [redisRuns, hl', Bool.false_eq_true, if_false]
      rw [cleanOk_false_launchFail]
      exact ih (r + 1)

lemma cleanOk_rexLoop (w : String) (nc : Nat)
    (lOk wOk : Nat → String → Bool) :
    ∀ cells, cleanOk false (rexLoop w nc lOk wOk cells).1 = true := by
  intro cells
  induction cells with
  | nil => rfl
  | cons cell rest ih =>
    obtain ⟨r, mt⟩ := cell
    by_cases hl : lOk r mt = true
    · by_cases hw : wOk r mt = true
      · simp [rexLoop, hl, hw, cleanOk, ih]
      · simp [rexLoop, hl, hw, cleanOk]
    · simp [rexLoop, hl, cleanOk]

/-- Claim C4: in both sweeps, every successful launch is followed by its
stop/reset cleanup exactly once, with only workload and artifact events
in between (so cleanup is the last lifecycle action of that launch,
executed before the next launch or program end), and this holds for
every pattern of workload load/run-phase failures. -/
theorem cleanup_exactly_once (w : String) (nc runs : Nat)
    (b bc bm : CmdResult) (lOk : Nat → Bool)
    (lOk2 wOk wOk2 : Nat → String → Bool) :
    cleanOk false (redisSweep w nc runs b lOk wOk).1 = true ∧
    cleanOk false (rexSweep w nc runs bc bm lOk2 wOk2).1 = true := by
  constructor
  · by_cases hb : cmdOk b = true
    · simp only [redisSweep, hb, if_true]
      rw [cleanOk_false_build]
      exact cleanOk_redisRuns w nc lOk wOk runs 0
    · simp only [redisSweep, hb, Bool.false_eq_true, if_false]
      rfl
  · by_cases hb : cmdOk bc = true
    · by_cases hb2 : cmdOk bm = true
      · simp only [rexSweep, hb, hb2, if_true]
        rw [cleanOk_false_build, cleanOk_false_buildYcsb]
        exact cleanOk_rexLoop w nc lOk2 wOk2 (rexCells runs)
      · simp only [rexSweep, hb, hb2, if_true, Bool.false_eq_true, if_false]
        rfl
    · simp only [rexSweep, hb, Bool.false_eq_true, if_false]
      rfl

/-! ### Fatal build failure: claim C7 -/

/-- Claim C7: when the build command exits non-zero, the rex_store sweep
raises and aborts immediately: the whole trace is the failed build
attempt, no cluster launch is ever attempted, and no output artifact is
produced. -/
theorem rex_build_failure_aborts (w : String) (nc runs : Nat)
    (buildRes buildYcsbRes : CmdResult) (lOk wOk : Nat → String → Bool)
    (hb : buildRes.exitZero = false) :
    rexSweep w nc runs buildRes buildYcsbRes lOk wOk =
      ([Ev.build], Outcome.raised) ∧
    (∀ r mt, Ev.launchOkEv r mt ∉
        (rexSweep w nc runs buildRes buildYcsbRes lOk wOk).1 ∧
      Ev.launchFailEv r mt ∉
        (rexSweep w nc runs buildRes buildYcsbRes lOk wOk).1) ∧
    (∀ p, Ev.artifactEv p ∉
        (rexSweep w nc runs buildRes buildYcsbRes lOk wOk).1) := by
  have hc : cmdOk buildRes = false := by simp [cmdOk, run_command, hb]
  have h1 : rexSweep w nc runs buildRes buildYcsbRes lOk wOk =
      ([Ev.build], Outcome.raised) := by
    simp [rexSweep, hc]
  refine ⟨h1, ?_, ?_⟩
  · intro r mt
    simp [h1]
  · intro p
    simp [h1]

/-- Witness for claim C7: a failing cargo build on a 2-run sweep leaves
only the build attempt in the trace and the sweep raising. -/
theorem rex_build_failure_aborts_witness :
    rexSweep "workloada" 3 2 ⟨false, "", ""⟩ ⟨true, "", ""⟩
      (fun _ _ => true) (fun _ _ => true) = ([Ev.build], Outcome.raised) :=
  (rex_build_failure_aborts "workloada" 3 2 ⟨false, "", ""⟩ ⟨true, "", ""⟩
    (fun _ _ => true) (fun _ _ => true) rfl).1

/-! ### Launch-failure handling in the sweeps: claim C2

The claim as stated is false on the code: in
`rex_store_cluster_benchmark.py` a failed launch calls `sys.exit(1)`,
terminating the whole program instead of skipping to the next
configuration, and in `redis_cluster_benchmark.py` the failed iteration
is skipped by `continue` without ever running the reset cleanup. -/

/-- Counterexample to claim C2 as stated: with every launch failing, the
rex_store sweep exits the program with status 1 on the very first cell —
the second cell `(0, "histogram")` is never even attempted — and the
redis sweep's failed iteration produces no cleanup event at all. -/
theorem sweep_launch_failure_counterexample :
    (rexSweep "workloada" 3 2 ⟨true, "", ""⟩ ⟨true, "", ""⟩
      (fun _ _ => false) (fun _ _ => true)).2 = Outcome.exited 1 ∧
    Ev.launchFailEv 0 "histogram" ∉ (rexSweep "workloada" 3 2 ⟨true, "", ""⟩
      ⟨true, "", ""⟩ (fun _ _ => false) (fun _ _ => true)).1 ∧
    Ev.launchOkEv 0 "histogram" ∉ (rexSweep "workloada" 3 2 ⟨true, "", ""⟩
      ⟨true, "", ""⟩ (fun _ _ => false) (fun _ _ => true)).1 ∧
    Ev.cleanupEv ∉ (redisSweep "workloada" 3 1 ⟨true, "", ""⟩
      (fun _ => false) (fun _ _ => true)).1 := by
  decide

lemma redisInner_good (w : String) (nc r : Nat) :
    redisInner (fun _ _ => true) w nc r measurement_types =
      ([Ev.workloadEv r "timeseries",
        Ev.artifactEv (output_file_path "redis_output" w nc "timeseries"
          (r + 1)),
        Ev.workloadEv r "histogram",
        Ev.artifactEv (output_file_path "redis_output" w nc "histogram"
          (r + 1))], false) := rfl

lemma redisRuns_launch_failures (w : String) (nc : Nat) (lOk : Nat → Bool) :
    ∀ k r,
      (redisRuns w nc lOk (fun _ _ => true) r k).2 = Outcome.completed ∧
      ((redisRuns w nc lOk (fun _ _ => true) r k).1).count Ev.cleanupEv =
        (List.range' r k).countP (fun i => lOk i) ∧
      ∀ r' ∈ List.range' r k,
        (lOk r' = true →
          Ev.launchOkEv r' "" ∈ (redisRuns w nc lOk (fun _ _ => true) r k).1) ∧
        (lOk r' = false →
          Ev.launchFailEv r' "" ∈
            (redisRuns w nc lOk (fun _ _ => true) r k).1) := by
  intro k
  induction k with
  | zero =>
    intro r
    refine ⟨rfl, rfl, ?_⟩
    intro r' hr'
    simp [List.range'] at hr'
  | succ k ih =>
    intro r
    obtain ⟨ihO, ihC, ihM⟩ := ih (r + 1)
    have hr : List.range' r (k + 1) = r :: List.range' (r + 1) k := rfl
    by_cases hl : lOk r = true
    · simp only [redisRuns, hl, if_true, redisInner_good w nc r,
        Bool.false_eq_true, if_false]
      refine ⟨ihO, ?_, ?_⟩
      · rw [hr]
        simp only [List.countP_cons, hl, if_true]
        simp [List.count_cons, List.count_append]
        omega
      · intro r' hr'
        rw [hr] at hr'
        rcases List.mem_cons.1 hr' with rfl | h'
        · refine ⟨fun _ => by simp, fun hfalse => ?_⟩
          rw [hfalse] at hl
          exact absurd hl (by simp)
        · obtain ⟨hmo, hmf⟩ := ihM r' h'
          refine ⟨fun ht => ?_, fun hf => ?_⟩
          · have := hmo ht
            simp [List.mem_cons, List.mem_append]
            tauto
          · have := hmf hf
            simp [List.mem_cons, List.mem_append]
            tauto
    · have hl' : lOk r = false := by simpa using hl
      simp only [redisRuns, hl', Bool.false_eq_true, if_false]
      refine ⟨ihO, ?_, ?_⟩
      · rw [hr]
        simp only [List.countP_cons, hl', if_false]
        simp [List.count_cons]
        omega
      · intro r' hr'
        rw [hr] at hr'
        rcases List.mem_cons.1 hr' with rfl | h'
        · refine ⟨fun ht => ?_, fun _ => by simp⟩
          rw [ht] at hl'
          exact absurd hl' (by simp)
        · obtain ⟨hmo, hmf⟩ := ihM r' h'
          exact ⟨fun ht => List.mem_cons_of_mem _ (hmo ht),
            fun hf => List.mem_cons_of_mem _ (hmf hf)⟩

lemma rexLoop_launch_failure (w : String) (nc : Nat)
    (lOk wOk : Nat → String → Bool) (r : Nat) (mt : String)
    (rest : List (Nat × String)) (hl : lOk r mt = false) :
    rexLoop w nc lOk wOk ((r, mt) :: rest) =
      ([Ev.launchFailEv r mt, Ev.exitEv 1], Outcome.exited 1) := by
  simp [rexLoop, hl]

/-- Amended claim C2: in the redis benchmark a sweep iteration whose
launch fails is logged and skipped and the sweep continues with the
remaining runs (every run is still visited and, with no workload
failures, the sweep completes normally) — but the reset cleanup does
*not* run for the failed iteration: the number of cleanup events equals
the number of *successful* launches.  In the rex_store benchmark a
failed launch instead terminates the whole program with exit status 1,
attempting nothing further. -/
theorem sweep_launch_failure_amended :
    (∀ (w : String) (nc runs : Nat) (b : CmdResult) (lOk : Nat → Bool),
      b.exitZero = true →
      (redisSweep w nc runs b lOk (fun _ _ => true)).2 = Outcome.completed ∧
      ((redisSweep w nc runs b lOk (fun _ _ => true)).1).count Ev.cleanupEv =
        (List.range' 0 runs).countP (fun i => lOk i) ∧
      ∀ r ∈ List.range' 0 runs,
        (lOk r = true → Ev.launchOkEv r "" ∈
          (redisSweep w nc runs b lOk (fun _ _ => true)).1) ∧
        (lOk r = false → Ev.launchFailEv r "" ∈
          (redisSweep w nc runs b lOk (fun _ _ => true)).1)) ∧
    (∀ (w : String) (nc : Nat) (lOk wOk : Nat → String → Bool) (r : Nat)
        (mt : String) (rest : List (Nat × String)), lOk r mt = false →
      rexLoop w nc lOk wOk ((r, mt) :: rest) =
        ([Ev.launchFailEv r mt, Ev.exitEv 1], Outcome.exited 1)) ∧
    (∀ (w : String) (nc k : Nat) (b bm : CmdResult)
        (lOk wOk : Nat → String → Bool),
      b.exitZero = true → bm.exitZero = true → lOk 0 "timeseries" = false →
      rexSweep w nc (k + 1) b bm lOk wOk =
        ([Ev.build, Ev.buildYcsb, Ev.launchFailEv 0 "timeseries",
          Ev.exitEv 1], Outcome.exited 1)) := by
  refine ⟨?_, rexLoop_launch_failure, ?_⟩
  · intro w nc runs b lOk hb
    have hc : cmdOk b = true := by simp [cmdOk, run_command, hb]
    obtain ⟨hO, hC, hM⟩ := redisRuns_launch_failures w nc lOk runs 0
    simp only [redisSweep, hc, if_true]
    refine ⟨hO, ?_, ?_⟩
    · rw [List.count_cons]
      simpa using hC
    · intro r hr
      obtain ⟨hmo, hmf⟩ := hM r hr
      exact ⟨fun ht => List.mem_cons_of_mem _ (hmo ht),
        fun hf => List.mem_cons_of_mem _ (hmf hf)⟩
  · intro w nc k b bm lOk wOk hb hbm hl
    have hc : cmdOk b = true := by simp [cmdOk, run_command, hb]
    have hc2 : cmdOk bm = true := by simp [cmdOk, run_command, hbm]
    have hcells : rexCells (k + 1) = (0, "timeseries") :: (0, "histogram") ::
        ((List.range' 1 k).flatMap fun r =>
          measurement_types.map fun mt => (r, mt)) := rfl
    simp only [rexSweep, hc, hc2, if_true, hcells]
    rw [rexLoop_launch_failure w nc lOk wOk 0 "timeseries" _ hl]

/-- Witness for the amended claim C2 at concrete inputs: a two-run redis
sweep whose first launch fails completes with exactly one cleanup and
both a failure and a success event; a rex_store sweep whose first launch
fails exits with status 1 immediately after the failed launch. -/
theorem sweep_launch_failure_amended_witness :
    (redisSweep "workloada" 3 2 ⟨true, "", ""⟩ (fun r => decide (r = 1))
      (fun _ _ => true)).2 = Outcome.completed ∧
    ((redisSweep "workloada" 3 2 ⟨true, "", ""⟩ (fun r => decide (r = 1))
      (fun _ _ => true)).1).count Ev.cleanupEv = 1 ∧
    Ev.launchFailEv 0 "" ∈ (redisSweep "workloada" 3 2 ⟨true, "", ""⟩
      (fun r => decide (r = 1)) (fun _ _ => true)).1 ∧
    rexSweep "workloada" 3 1 ⟨true, "", ""⟩ ⟨true, "", ""⟩
      (fun _ _ => false) (fun _ _ => true) =
      ([Ev.build, Ev.buildYcsb, Ev.launchFailEv 0 "timeseries",
        Ev.exitEv 1], Outcome.exited 1) := by
  obtain ⟨hredis, -, hrex⟩ := sweep_launch_failure_amended
  obtain ⟨hO, hC, hM⟩ := hredis "workloada" 3 2 ⟨true, "", ""⟩
    (fun r => decide (r = 1)) rfl
  refine ⟨hO, ?_, ?_, ?_⟩
  · rw [hC]; decide
  · exact (hM 0 (by decide)).2 (by decide)
  · exact hrex "workloada" 3 0 ⟨true, "", ""⟩ ⟨true, "", ""⟩
      (fun _ _ => false) (fun _ _ => true) rfl rfl rfl

end YCSBBench
